import Mathlib

/-!
Verification development for the kvasari artwork-sharing service.

The Go repository stores artworks, users, follow/ban relations, comments and
reactions in SQLite tables and exposes them through a repository layer
(`pkg/artworks`).  This file gives a shallow embedding of the data model and of
the operations the checked claims are about:

* the feed query `GetStream` (three-way classification of artwork rows into a
  backfill page, new artworks and tombstone ids);
* the comment listing `GetArtworkComments` with its ban predicate;
* the upload pipeline of the `addArtwork` handler (duplicate detection via the
  content-hash primary key, resurrection of soft-deleted rows, compensation of
  failed blob writes);
* the start-up reconciliation job `cleanRemovedArtworks`;
* `SetReaction` with its conditional upsert, and `SetArtworkTitle`.

Timestamps are persisted by the Go code as fixed-length RFC3339 UTC strings and
compared by SQLite as strings; for such strings the lexicographic order agrees
with the chronological one, so the embedding models each timestamp as a `Nat`
ordered in the usual way.  Columns that no claim reads (description, year,
location, created) are projected away.  SQL `WHERE` clauses are translated with
SQL operator precedence: `AND` binds tighter than `OR`.
-/

namespace Kvasari

/-- A row of the `users` table (columns irrelevant to the claims omitted).
The `alias` column is renamed `aliasName` because `alias` is a Lean command. -/
structure UserRow where
  id : String
  aliasName : String
  name : String
deriving DecidableEq

/-- A row of the `artworks` table.  The primary key is `id` (the content hash);
`authorId` references `users(id)`.  `added`/`updated` hold server timestamps
and `deleted` is the soft-delete tombstone (default `FALSE`). -/
structure ArtworkRow where
  id : String
  authorId : String
  artType : String
  format : String
  title : Option String
  added : Nat
  updated : Nat
  deleted : Bool
deriving DecidableEq

/-- A row of `artwork_feedback`: primary key `(artwork, user)`, with foreign
keys to `artworks(id)` (ON DELETE CASCADE) and `users(id)`. -/
structure FeedbackRow where
  artwork : String
  user : String
  reaction : String
  date : Nat
deriving DecidableEq

/-- A row of `artwork_comments`: primary key `id`, foreign keys to
`artworks(id)` (ON DELETE CASCADE) and `users(id)`. -/
structure CommentRow where
  id : String
  artwork : String
  user : String
  comment : String
  date : Nat
deriving DecidableEq

/-- The database state: the five tables the claims touch.  `followers` holds
`(follower, target)` pairs and `bans` holds `(source, target)` pairs, as in the
schema. -/
structure DB where
  users : List UserRow
  artworks : List ArtworkRow
  followers : List (String × String)
  bans : List (String × String)
  feedback : List FeedbackRow
  comments : List CommentRow
deriving DecidableEq

/-- The subquery `author_id IN (SELECT target FROM followers WHERE follower = ?)`
applied to a single author: does `follower` follow `target`? -/
def follows (db : DB) (follower target : String) : Bool :=
  db.followers.any fun p => p.1 == follower && p.2 == target

/-- The `JOIN users ON arts.author_id = users.id` step keeps a row exactly when
its author id appears in the `users` table. -/
def authorListed (db : DB) (r : ArtworkRow) : Bool :=
  db.users.any fun u => u.id == r.authorId

/-- The `LIMIT` constant of `GetStream` (`const defaultPage = 12`). -/
def defaultPage : Nat := 12

/-- The computed column `added > ? as new` of the `GetStream` query; the Go
code binds the `since` argument to this placeholder. -/
def streamNew (since : Nat) (r : ArtworkRow) : Bool :=
  decide (since < r.added)

/-- The `WHERE` clause of the `GetStream` query, with the placeholders bound in
the order the Go code passes them (`latest`, `since`, `latest`, `since`) and
with SQL precedence: the follower membership test governs only the first
disjunct. -/
def streamWhere (db : DB) (userId : String) (since latest : Nat) (r : ArtworkRow) : Bool :=
  (follows db userId r.authorId && decide (r.added < latest) && !r.deleted)
  || (decide (since < r.added) && !r.deleted)
  || (r.deleted && decide (latest < r.added) && decide (r.added < since))

/-- Newest-first ordering on artwork rows (`ORDER BY added DESC`).  SQLite does
not specify the relative order of rows with equal `added` values; the embedding
resolves ties with a stable insertion sort. -/
def byAddedDesc (a b : ArtworkRow) : Prop := b.added ≤ a.added

instance : DecidableRel byAddedDesc := fun a b => Nat.decLe b.added a.added

instance : IsTotal ArtworkRow byAddedDesc :=
  ⟨fun a b => (Nat.le_total b.added a.added).elim Or.inl Or.inr⟩

instance : IsTrans ArtworkRow byAddedDesc :=
  ⟨fun _ _ _ hab hbc => Nat.le_trans hbc hab⟩

/-- The row set produced by the `GetStream` SQL statement: filter by the
`WHERE` clause, join with `users`, sort newest-first, apply `LIMIT 12`. -/
def streamRows (db : DB) (userId : String) (since latest : Nat) : List ArtworkRow :=
  (((db.artworks.filter fun r => streamWhere db userId since latest r
      && authorListed db r).insertionSort byAddedDesc).take defaultPage)

/-- The scan loop of `GetStream`: each row goes to the new bucket when its
`new` column is set, otherwise to the tombstone bucket when `deleted` is set,
otherwise to the backfill bucket, preserving row order. -/
def classifyStream (since : Nat) : List ArtworkRow →
    List ArtworkRow × List ArtworkRow × List ArtworkRow
  | [] => ([], [], [])
  | r :: rest =>
    let prev := classifyStream since rest
    if streamNew since r then (prev.1, r :: prev.2.1, prev.2.2)
    else if r.deleted then (prev.1, prev.2.1, r :: prev.2.2)
    else (r :: prev.1, prev.2.1, prev.2.2)

/-- The result of a feed call: backfill artworks, new artworks, tombstone ids. -/
structure StreamData where
  Artworks : List ArtworkRow
  NewArtworks : List ArtworkRow
  DeletedIds : List String
deriving DecidableEq

/-- The feed query `GetStream(userId, since, latest)` of the artworks store. -/
def GetStream (db : DB) (userId : String) (since latest : Nat) : StreamData :=
  let buckets := classifyStream since (streamRows db userId since latest)
  ⟨buckets.1, buckets.2.1, buckets.2.2.map fun r => r.id⟩

/-- The ban predicate of the `GetArtworkComments` query: the requester is
excluded when it appears as the target of a ban whose source is the author of
the artwork the comment belongs to. -/
def commentBanned (db : DB) (c : CommentRow) (requesterId : String) : Bool :=
  db.bans.any fun b => b.2 == requesterId
    && db.artworks.any fun a => a.id == c.artwork && a.authorId == b.1

/-- Newest-first ordering on comment rows (`ORDER BY date DESC`). -/
def byDateDesc (a b : CommentRow) : Prop := b.date ≤ a.date

instance : DecidableRel byDateDesc := fun a b => Nat.decLe b.date a.date

/-- The comment listing `GetArtworkComments(artworkId, requesterId)`: comments
of the artwork, joined with `users`, with the ban predicate applied, newest
first.  A collection is always returned, whether or not the artwork exists. -/
def GetArtworkComments (db : DB) (artworkId requesterId : String) : List CommentRow :=
  ((db.comments.filter fun c => c.artwork == artworkId
      && (db.users.any fun u => u.id == c.user)
      && !commentBanned db c requesterId).insertionSort byDateDesc)

/-- Errors surfaced by the store layer: `ErrNotFound`, `ErrNotModified`,
`ErrDupArtwork`, and a generic storage or constraint failure. -/
inductive StoreErr where
  | notFound
  | notModified
  | dupArtwork
  | storage
deriving DecidableEq

/-- Deletes the artwork rows satisfying `doomed` and cascades the deletion to
`artwork_feedback` and `artwork_comments` rows whose artwork disappears
(`ON DELETE CASCADE`). -/
def removeArtworkRows (db : DB) (doomed : ArtworkRow → Bool) : DB :=
  let remaining := db.artworks.filter fun r => !doomed r
  { db with
    artworks := remaining
    feedback := db.feedback.filter fun f => remaining.any fun a => a.id == f.artwork
    comments := db.comments.filter fun c => remaining.any fun a => a.id == c.artwork }

/-- `CleanDeletedArtwork(artworkId, userId)`: `DELETE FROM artworks WHERE
id = ? AND author_id = ? AND deleted`, reporting whether exactly one row was
affected. -/
def CleanDeletedArtwork (db : DB) (artworkId userId : String) : Bool × DB :=
  let doomed : ArtworkRow → Bool :=
    fun r => r.id == artworkId && r.authorId == userId && r.deleted
  ((db.artworks.filter doomed).length == 1, removeArtworkRows db doomed)

/-- `CleanArtwork(artworkId, userId)`: `DELETE FROM artworks WHERE id = ? AND
author_id = ?`, with no tombstone check. -/
def CleanArtwork (db : DB) (artworkId userId : String) : DB :=
  removeArtworkRows db fun r => r.id == artworkId && r.authorId == userId

/-- `AddArtwork(data)`: inserts a fresh artwork row with `added = updated =
now` and a clear tombstone; an existing row with the same primary key makes the
insert fail with `ErrDupArtwork`. -/
def AddArtwork (db : DB) (id artType format authorId : String) (now : Nat) :
    Except StoreErr (Nat × DB) :=
  if db.artworks.any fun r => r.id == id then .error .dupArtwork
  else .ok (now,
    { db with artworks :=
        db.artworks ++ [⟨id, authorId, artType, format, none, now, now, false⟩] })

/-- The outcome the `addArtwork` handler reports to the client after the
upload was hashed and validated. -/
inductive PublishResult where
  | created (date : Nat)
  | dupArtwork
  | storageError
deriving DecidableEq

/-- The blob name `{hash}.{format}` used both by `writeImage` and by the
reconciliation job. -/
def blobName (id format : String) : String := id ++ "." ++ format

/-- The persistence part of the `addArtwork` handler, after hashing and
validation: attempt to clean a soft-deleted row with the same hash, insert the
catalog row (failing on a duplicate), then write the blob unless the clean-up
showed the image is already on disk; a failed blob write (modelled by
`writeOk = false`) is compensated by `CleanArtwork` and surfaced.  The image
store is the list of blob names present on disk; `os.Create` truncates an
existing file, so a successful write adds the name at most once. -/
def publishArtwork (db : DB) (blobs : List String) (userId checksum format : String)
    (now : Nat) (writeOk : Bool) : PublishResult × DB × List String :=
  let cleaned := CleanDeletedArtwork db checksum userId
  match AddArtwork cleaned.2 checksum "Painting" format userId now with
  | .error _ => (.dupArtwork, cleaned.2, blobs)
  | .ok result =>
    if !cleaned.1 then
      if writeOk then
        (.created result.1, result.2,
          if blobs.contains (blobName checksum format) then blobs
          else blobs ++ [blobName checksum format])
      else (.storageError, CleanArtwork result.2 checksum userId, blobs)
    else (.created result.1, result.2, blobs)

/-- The blob-removal loop of `cleanRemovedArtworks`: for every returned
`(id, format)` pair call `os.Remove` on `{id}.{format}`; removing an absent
file yields an error, which aborts the loop and is propagated (`false` flag),
leaving the remaining blobs in place. -/
def removeBlobFiles : List ArtworkRow → List String → List String × Bool
  | [], blobs => (blobs, true)
  | r :: rest, blobs =>
    if blobs.contains (blobName r.id r.format) then
      removeBlobFiles rest (blobs.erase (blobName r.id r.format))
    else (blobs, false)

/-- The start-up reconciliation job `cleanRemovedArtworks`: `DELETE FROM
artworks WHERE deleted = TRUE RETURNING id, format` (SQLite runs the whole
statement on the first step, so every soft-deleted row is removed from the
database even when a later file removal fails), then remove the corresponding
blob files.  The `Bool` component is `false` exactly when an `os.Remove` call
returned an error, which `NewStore` escalates to a panic. -/
def cleanRemovedArtworks (db : DB) (blobs : List String) : DB × List String × Bool :=
  (removeArtworkRows db (fun r => r.deleted),
    removeBlobFiles (db.artworks.filter fun r => r.deleted) blobs)

/-- The `DO UPDATE SET reaction = ?, date = ?` action of the upsert, applied
to the conflicting row and leaving every other row alone. -/
def upsertReaction (artworkId userId reaction : String) (date : Nat)
    (g : FeedbackRow) : FeedbackRow :=
  if g.artwork == artworkId && g.user == userId then
    { g with reaction := reaction, date := date }
  else g

/-- `SetReaction(userId, artworkId, date, reaction)`: `INSERT ... ON CONFLICT
(artwork, user) DO UPDATE SET reaction = ?, date = ? WHERE reaction != ?`.
Foreign keys require the artwork and the user to exist, else the statement
fails with a constraint error; when the stored reaction already equals the new
one, no row is affected and `ErrNotModified` is returned. -/
def SetReaction (db : DB) (userId artworkId : String) (date : Nat) (reaction : String) :
    Except StoreErr DB :=
  if !(db.artworks.any fun a => a.id == artworkId)
      || !(db.users.any fun u => u.id == userId) then
    .error .storage
  else
    match db.feedback.find? fun f => f.artwork == artworkId && f.user == userId with
    | none => .ok { db with feedback := db.feedback ++ [⟨artworkId, userId, reaction, date⟩] }
    | some f =>
      if f.reaction == reaction then .error .notModified
      else .ok { db with
        feedback := db.feedback.map (upsertReaction artworkId userId reaction date) }

/-- The status the `setReaction` handler serialises in its response. -/
inductive ReactionStatus where
  | changed (date : Nat)
  | unchanged
  | serverError
deriving DecidableEq

/-- The `setReaction` handler after validation: a nil store error yields the
`changed` status carrying the freshly minted date, `ErrNotModified` yields
`unchanged`, anything else is an internal server error. -/
def setReactionCall (db : DB) (userId artworkId : String) (date : Nat) (reaction : String) :
    ReactionStatus × DB :=
  match SetReaction db userId artworkId date reaction with
  | .ok db' => (.changed date, db')
  | .error .notModified => (.unchanged, db)
  | .error _ => (.serverError, db)

/-- The `SET title = ?` action of the title update, applied to the rows the
`WHERE id = ? AND author_id = ?` clause selects. -/
def retitleRow (artworkId userId newTitle : String) (r : ArtworkRow) : ArtworkRow :=
  if r.id == artworkId && r.authorId == userId then { r with title := some newTitle }
  else r

/-- `SetArtworkTitle(artworkId, userId, newTitle)`: `UPDATE artworks SET
title = ? WHERE id = ? AND author_id = ?`; zero affected rows yield
`ErrNotModified`.  The tombstone column is not consulted. -/
def SetArtworkTitle (db : DB) (artworkId userId newTitle : String) :
    Except StoreErr DB :=
  let affected := (db.artworks.filter fun r =>
    r.id == artworkId && r.authorId == userId).length
  if affected == 0 then .error .notModified
  else .ok { db with artworks := db.artworks.map (retitleRow artworkId userId newTitle) }

/-! Concrete database states used to evaluate the queries. -/

/-- A user acting as an artwork author in the concrete states below. -/
def alice : UserRow := ⟨"ua", "aliceart", "Alice"⟩

/-- A user acting as the feed requester in the concrete states below. -/
def bob : UserRow := ⟨"ub", "bobviewer", "Bob"⟩

/-- Bob follows Alice; Alice has one live artwork with `added = 2`. -/
def dbFollowedLive : DB :=
  ⟨[alice, bob], [⟨"art1", "ua", "Painting", "png", none, 2, 2, false⟩],
    [("ub", "ua")], [], [], []⟩

/-- Alice bans Bob (so no follow relation exists); Alice has one live artwork
with `added = 5` and one comment on it. -/
def dbBanned : DB :=
  ⟨[alice, bob], [⟨"art2", "ua", "Painting", "png", none, 5, 5, false⟩],
    [], [("ua", "ub")], [], [⟨"c1", "art2", "ua", "what a fine piece", 6⟩]⟩

/-- Nobody follows or bans anyone; Alice has one soft-deleted artwork with
`added = 3`. -/
def dbUnrelatedDeleted : DB :=
  ⟨[alice, bob], [⟨"d1", "ua", "Painting", "png", none, 3, 3, true⟩],
    [], [], [], []⟩

/-- Bob follows Alice, who has thirteen live artworks with `added = 1..13`. -/
def dbThirteen : DB :=
  ⟨[alice, bob],
    [⟨"n01", "ua", "Painting", "png", none, 1, 1, false⟩,
     ⟨"n02", "ua", "Painting", "png", none, 2, 2, false⟩,
     ⟨"n03", "ua", "Painting", "png", none, 3, 3, false⟩,
     ⟨"n04", "ua", "Painting", "png", none, 4, 4, false⟩,
     ⟨"n05", "ua", "Painting", "png", none, 5, 5, false⟩,
     ⟨"n06", "ua", "Painting", "png", none, 6, 6, false⟩,
     ⟨"n07", "ua", "Painting", "png", none, 7, 7, false⟩,
     ⟨"n08", "ua", "Painting", "png", none, 8, 8, false⟩,
     ⟨"n09", "ua", "Painting", "png", none, 9, 9, false⟩,
     ⟨"n10", "ua", "Painting", "png", none, 10, 10, false⟩,
     ⟨"n11", "ua", "Painting", "png", none, 11, 11, false⟩,
     ⟨"n12", "ua", "Painting", "png", none, 12, 12, false⟩,
     ⟨"n13", "ua", "Painting", "png", none, 13, 13, false⟩],
    [("ub", "ua")], [], [], []⟩

/-- Alice has two soft-deleted artworks; only the second blob is on disk. -/
def dbTwoTombstones : DB :=
  ⟨[alice],
    [⟨"d1", "ua", "Painting", "png", none, 1, 1, true⟩,
     ⟨"d2", "ua", "Painting", "jpg", none, 2, 2, true⟩],
    [], [], [], []⟩

/-- C1: the claim states that `GetStream(u, since, latest)` backfills the
followed, non-deleted artworks with `added < since`.  The code binds the query
placeholders in the order `since, userId, latest, since, latest, since`, so
the backfill branch compares `added < latest` and the new branch `added >
since`: with `since = 3`, `latest = 2`, the followed live artwork with
`added = 2` satisfies the backfill predicate of the claim (second conjunct) yet the
call returns three empty sequences (first conjunct). -/
theorem getStream_swaps_cursor_parameters :
    GetStream dbFollowedLive "ub" 3 2 = ⟨[], [], []⟩ ∧
    (dbFollowedLive.artworks.filter fun r =>
      follows dbFollowedLive "ub" r.authorId && !r.deleted && decide (r.added < 3)) =
      [⟨"art1", "ua", "Painting", "png", none, 2, 2, false⟩] := by
  decide

/-- C4: the claim states that artworks of an author never reach a requester the
author banned.  The `GetStream` query contains no ban predicate, and SQL
precedence detaches its new-artworks branch from the follower filter: with the
ban `("ua", "ub")` in place (second conjunct) and no follow relation at all
(third conjunct), the artwork of Alice with `added = 5` still arrives in the
`NewArtworks` for `since = 3` (first conjunct); the comment listing, whose
query does apply the ban predicate, correctly returns nothing (fourth
conjunct). -/
theorem getStream_ignores_bans :
    (GetStream dbBanned "ub" 3 4).NewArtworks =
      [⟨"art2", "ua", "Painting", "png", none, 5, 5, false⟩] ∧
    dbBanned.bans = [("ua", "ub")] ∧
    dbBanned.followers = [] ∧
    GetArtworkComments dbBanned "art2" "ub" = [] := by
  decide

/-- C2 counterexample: the claim restricts `DeletedIds` to artworks visible to
the requester (followed, non-banning authors).  In a state with no follow
relation whatsoever (second conjunct), the soft-deleted artwork `d1` with
`latest < added < since` is still reported (first conjunct), so the returned
set is not limited to the visible set, which here is empty. -/
theorem getStream_tombstones_ignore_visibility :
    (GetStream dbUnrelatedDeleted "ub" 5 1).DeletedIds = ["d1"] ∧
    dbUnrelatedDeleted.followers = [] := by
  decide

/-- C3 counterexample: the claim states that `NewArtworks` is not capped by
the page size.  Thirteen followed, live artworks match the new-items
predicate `added > latest` for `latest = 0` (second conjunct), but the single
`LIMIT 12` of the query leaves only twelve of them in `NewArtworks` (first
conjunct). -/
theorem getStream_new_capped_at_page_size :
    (GetStream dbThirteen "ub" 0 0).NewArtworks.length = 12 ∧
    (dbThirteen.artworks.filter fun r =>
      follows dbThirteen "ub" r.authorId && !r.deleted && decide (0 < r.added)).length = 13 := by
  decide

/-- C8: the claim states that the reconciliation job tolerates an already
missing blob and continues with the remaining rows.  With two soft-deleted
rows and only the second blob on disk, the embedded `cleanRemovedArtworks`
reports a failure (first conjunct; `NewStore` escalates it to a panic), leaves
the second blob unremoved (second conjunct), while both catalog rows are
nonetheless already gone (third conjunct). -/
theorem cleanRemovedArtworks_fails_on_missing_blob :
    (cleanRemovedArtworks dbTwoTombstones ["d2.jpg"]).2.2 = false ∧
    (cleanRemovedArtworks dbTwoTombstones ["d2.jpg"]).2.1 = ["d2.jpg"] ∧
    (cleanRemovedArtworks dbTwoTombstones ["d2.jpg"]).1.artworks = [] := by
  decide

/-! Structural lemmas about the stream classification. -/

/-- Unfolding equation of `classifyStream` on a cons cell. -/
theorem classifyStream_cons (since : Nat) (r : ArtworkRow) (rest : List ArtworkRow) :
    classifyStream since (r :: rest) =
      if streamNew since r then
        ((classifyStream since rest).1, r :: (classifyStream since rest).2.1,
          (classifyStream since rest).2.2)
      else if r.deleted then
        ((classifyStream since rest).1, (classifyStream since rest).2.1,
          r :: (classifyStream since rest).2.2)
      else
        (r :: (classifyStream since rest).1, (classifyStream since rest).2.1,
          (classifyStream since rest).2.2) := rfl

/-- The three buckets of `classifyStream` are the filters of the row list by
the new flag, by its negation with the tombstone, and by neither. -/
theorem classifyStream_eq_filter (since : Nat) (rows : List ArtworkRow) :
    classifyStream since rows =
      (rows.filter fun r => !streamNew since r && !r.deleted,
       rows.filter fun r => streamNew since r,
       rows.filter fun r => !streamNew since r && r.deleted) := by
  induction rows with
  | nil => rfl
  | cons x rest ih =>
    rw [classifyStream_cons, ih]
    cases h1 : streamNew since x <;> cases h2 : x.deleted <;>
      simp [List.filter_cons, h1, h2]

/-- Classification is a partition: the bucket lengths sum to the row count. -/
theorem classifyStream_length (since : Nat) (rows : List ArtworkRow) :
    (classifyStream since rows).1.length + (classifyStream since rows).2.1.length
      + (classifyStream since rows).2.2.length = rows.length := by
  induction rows with
  | nil => rfl
  | cons x rest ih =>
    rw [classifyStream_cons]
    cases h1 : streamNew since x <;> cases h2 : x.deleted <;>
      simp only [h1, h2, if_true, if_false, Bool.false_eq_true, List.length_cons] <;>
      omega

/-- C3 (amended): the claim asserted that only the backfill is capped at the
page size; in fact the single `LIMIT 12` of the query caps all three sequences
together, so their lengths always sum to at most twelve, while every sequence
is indeed sorted newest-first by `added` (the tombstone ids being the
projection of the sorted row list `(classifyStream ...).2.2`). -/
theorem getStream_shared_cap_and_sorted (db : DB) (u : String) (since latest : Nat) :
    (GetStream db u since latest).Artworks.length
        + (GetStream db u since latest).NewArtworks.length
        + (GetStream db u since latest).DeletedIds.length ≤ defaultPage ∧
    List.Sorted byAddedDesc (GetStream db u since latest).Artworks ∧
    List.Sorted byAddedDesc (GetStream db u since latest).NewArtworks ∧
    List.Sorted byAddedDesc (classifyStream since (streamRows db u since latest)).2.2 := by
  have hsorted : List.Sorted byAddedDesc (streamRows db u since latest) :=
    List.Pairwise.sublist (List.take_sublist _ _) (List.sorted_insertionSort byAddedDesc _)
  have hlen : (streamRows db u since latest).length ≤ defaultPage :=
    List.length_take_le _ _
  have hpart := classifyStream_length since (streamRows db u since latest)
  have hfilters := classifyStream_eq_filter since (streamRows db u since latest)
  refine ⟨?_, ?_, ?_, ?_⟩
  · simp only [GetStream, List.length_map]
    omega
  · simp only [GetStream, hfilters]
    exact List.Pairwise.sublist (List.filter_sublist _) hsorted
  · simp only [GetStream, hfilters]
    exact List.Pairwise.sublist (List.filter_sublist _) hsorted
  · simp only [hfilters]
    exact List.Pairwise.sublist (List.filter_sublist _) hsorted

/-- C2 (amended): provided the `LIMIT 12` of the query does not truncate the result
set, `DeletedIds` contains exactly the identities of soft-deleted artworks
with `latest < added < since` whose author exists — with no restriction to
authors the requester follows or that do not ban the requester. -/
theorem getStream_tombstone_window (db : DB) (u : String) (since latest : Nat)
    (hsmall : (db.artworks.filter fun r => streamWhere db u since latest r
        && authorListed db r).length ≤ defaultPage) (idv : String) :
    idv ∈ (GetStream db u since latest).DeletedIds ↔
      ∃ r ∈ db.artworks, r.id = idv ∧ r.deleted = true ∧
        latest < r.added ∧ r.added < since ∧ authorListed db r = true := by
  have hrows : streamRows db u since latest =
      (db.artworks.filter fun r => streamWhere db u since latest r
        && authorListed db r).insertionSort byAddedDesc := by
    unfold streamRows
    apply List.take_of_length_le
    rw [List.length_insertionSort]
    exact hsmall
  simp only [GetStream, classifyStream_eq_filter, List.mem_map, List.mem_filter, hrows,
    List.mem_insertionSort, Bool.and_eq_true, Bool.not_eq_true']
  constructor
  · rintro ⟨r, ⟨⟨hmem, hwhere, hlisted⟩, hnew, hdel⟩, hid⟩
    simp only [streamWhere, Bool.or_eq_true, Bool.and_eq_true, Bool.not_eq_true',
      decide_eq_true_eq] at hwhere
    rcases hwhere with (⟨_, hfalse⟩ | ⟨_, hfalse⟩) | ⟨⟨_, hlt1⟩, hlt2⟩
    · simp [hfalse] at hdel
    · simp [hfalse] at hdel
    · exact ⟨r, hmem, hid, hdel, hlt1, hlt2, hlisted⟩
  · rintro ⟨r, hmem, hid, hdel, hlt1, hlt2, hlisted⟩
    refine ⟨r, ⟨⟨hmem, ?_, hlisted⟩, ?_, hdel⟩, hid⟩
    · simp only [streamWhere, Bool.or_eq_true, Bool.and_eq_true, decide_eq_true_eq]
      exact Or.inr ⟨⟨hdel, hlt1⟩, hlt2⟩
    · have hnotnew : ¬ (since < r.added) := by omega
      simp [streamNew, hnotnew]

/-- C2 witness: in the state with an unrelated soft-deleted artwork, the
window characterisation puts `d1` into the tombstone ids of the call with
`since = 5`, `latest = 1`. -/
theorem getStream_tombstone_window_witness :
    "d1" ∈ (GetStream dbUnrelatedDeleted "ub" 5 1).DeletedIds :=
  (getStream_tombstone_window dbUnrelatedDeleted "ub" 5 1 (by decide) "d1").mpr
    ⟨⟨"d1", "ua", "Painting", "png", none, 3, 3, true⟩, by decide, rfl, rfl,
      by decide, by decide, by decide⟩

/-! The upload pipeline. -/

/-- Narrowing a filter that already yields a single element: a stronger
predicate that still accepts that element filters the list to the same
singleton. -/
theorem filter_singleton_of_subpred {α : Type} (p q : α → Bool) (l : List α) (a : α)
    (hpl : l.filter p = [a]) (hq : q a = true) (himp : ∀ x, q x = true → p x = true) :
    l.filter q = [a] := by
  induction l with
  | nil => simp at hpl
  | cons x xs ih =>
    cases hp : p x
    · rw [List.filter_cons_of_neg (by simp [hp])] at hpl
      have hqx : q x = false := by
        cases hqx : q x
        · rfl
        · rw [himp x hqx] at hp
          exact absurd hp (by simp)
      rw [List.filter_cons_of_neg (by simp [hqx])]
      exact ih hpl
    · rw [List.filter_cons_of_pos (by simp [hp])] at hpl
      injection hpl with hxa hnil
      rw [List.filter_cons_of_pos (by simp [hxa, hq])]
      have hrest : xs.filter q = [] := by
        refine List.filter_eq_nil_iff.mpr fun y hy hqy => ?_
        exact List.filter_eq_nil_iff.mp hnil y hy (himp y hqy)
      rw [hrest, hxa]

/-- C5: when a live catalog row already carries the uploaded content hash, the
publish pipeline reports the duplicate-artwork conflict and the image store is
left exactly as it was: no blob is written by the failing call. -/
theorem publish_duplicate_live (db : DB) (blobs : List String) (u h fmt : String)
    (now : Nat) (writeOk : Bool) (r : ArtworkRow)
    (hr : r ∈ db.artworks) (hid : r.id = h) (hlive : r.deleted = false) :
    (publishArtwork db blobs u h fmt now writeOk).1 = .dupArtwork ∧
    (publishArtwork db blobs u h fmt now writeOk).2.2 = blobs := by
  have hmem : r ∈ (CleanDeletedArtwork db h u).2.artworks := by
    simp only [CleanDeletedArtwork, removeArtworkRows, List.mem_filter]
    exact ⟨hr, by simp [hlive]⟩
  have hany : ((CleanDeletedArtwork db h u).2.artworks.any fun x => x.id == h) = true :=
    List.any_eq_true.mpr ⟨r, hmem, by simp [hid]⟩
  simp [publishArtwork, AddArtwork, hany]

/-- C5 witness: re-publishing the bytes of the live artwork `art1` under its
own author is rejected as a duplicate and writes no blob. -/
theorem publish_duplicate_live_witness :
    (publishArtwork dbFollowedLive [] "ua" "art1" "png" 9 true).1 = .dupArtwork ∧
    (publishArtwork dbFollowedLive [] "ua" "art1" "png" 9 true).2.2 = ([] : List String) :=
  publish_duplicate_live dbFollowedLive [] "ua" "art1" "png" 9 true
    ⟨"art1", "ua", "Painting", "png", none, 2, 2, false⟩ (by decide) rfl rfl

/-- C6: re-uploading bytes whose hash identifies a soft-deleted row of the
same author succeeds with the same identity: afterwards exactly one catalog
row carries that hash, its tombstone is clear, and — the image being still on
disk — no blob is written. -/
theorem publish_resurrects_soft_deleted (db : DB) (blobs : List String)
    (u h fmt : String) (now : Nat) (writeOk : Bool) (r : ArtworkRow)
    (hfilter : db.artworks.filter (fun x => x.id == h) = [r])
    (hauth : r.authorId = u) (hdel : r.deleted = true)
    (_hblob : blobName h fmt ∈ blobs) :
    (publishArtwork db blobs u h fmt now writeOk).1 = .created now ∧
    (publishArtwork db blobs u h fmt now writeOk).2.1.artworks.filter (fun x => x.id == h)
      = [⟨h, u, "Painting", fmt, none, now, now, false⟩] ∧
    (publishArtwork db blobs u h fmt now writeOk).2.2 = blobs := by
  have hrmem : r ∈ db.artworks.filter fun x => x.id == h := by
    rw [hfilter]; exact List.mem_singleton.mpr rfl
  have hid : r.id = h := by
    have := (List.mem_filter.mp hrmem).2
    simpa using this
  have hdoomed : db.artworks.filter
      (fun x => x.id == h && x.authorId == u && x.deleted) = [r] := by
    refine filter_singleton_of_subpred _ _ _ _ hfilter (by simp [hid, hauth, hdel]) ?_
    intro x hx
    simp only [Bool.and_eq_true] at hx
    exact hx.1.1
  have hcleanNil : ((CleanDeletedArtwork db h u).2.artworks.filter fun x => x.id == h) = [] := by
    refine List.filter_eq_nil_iff.mpr fun y hy hyh => ?_
    simp only [CleanDeletedArtwork, removeArtworkRows, List.mem_filter] at hy
    have hyr : y = r := by
      have : y ∈ db.artworks.filter fun x => x.id == h :=
        List.mem_filter.mpr ⟨hy.1, hyh⟩
      rw [hfilter] at this
      exact List.mem_singleton.mp this
    have := hy.2
    rw [hyr] at this
    simp [hid, hauth, hdel] at this
  have hanyFalse : ((CleanDeletedArtwork db h u).2.artworks.any fun x => x.id == h) = false := by
    cases hcase : (CleanDeletedArtwork db h u).2.artworks.any fun x => x.id == h
    · rfl
    · obtain ⟨y, hy, hyh⟩ := List.any_eq_true.mp hcase
      have : y ∈ (CleanDeletedArtwork db h u).2.artworks.filter fun x => x.id == h :=
        List.mem_filter.mpr ⟨hy, hyh⟩
      rw [hcleanNil] at this
      simp at this
  have hflag : (CleanDeletedArtwork db h u).1 = true := by
    simp only [CleanDeletedArtwork, hdoomed]
    rfl
  refine ⟨?_, ?_, ?_⟩ <;>
    simp [publishArtwork, AddArtwork, hanyFalse, hflag, List.filter_append, hcleanNil]

/-- C6 witness: re-uploading the bytes of the soft-deleted artwork `d1` under
its author resurrects its identity without touching the blob store. -/
theorem publish_resurrects_soft_deleted_witness :
    (publishArtwork dbUnrelatedDeleted ["d1.png"] "ua" "d1" "png" 9 true).1 = .created 9 ∧
    (publishArtwork dbUnrelatedDeleted ["d1.png"] "ua" "d1" "png" 9 true).2.1.artworks.filter
      (fun x => x.id == "d1") = [⟨"d1", "ua", "Painting", "png", none, 9, 9, false⟩] ∧
    (publishArtwork dbUnrelatedDeleted ["d1.png"] "ua" "d1" "png" 9 true).2.2 = ["d1.png"] :=
  publish_resurrects_soft_deleted dbUnrelatedDeleted ["d1.png"] "ua" "d1" "png" 9 true
    ⟨"d1", "ua", "Painting", "png", none, 3, 3, true⟩ (by decide) rfl rfl (by decide)

/-- C7: when the catalog insert succeeds but the blob write fails, the
pipeline surfaces the storage error, compensates by removing the row it just
inserted — no row with the uploaded hash survives — and the image store is
untouched. -/
theorem publish_write_failure_compensates (db : DB) (blobs : List String)
    (u h fmt : String) (now : Nat)
    (hfresh : ∀ r ∈ db.artworks, r.id ≠ h) :
    (publishArtwork db blobs u h fmt now false).1 = .storageError ∧
    (∀ r ∈ (publishArtwork db blobs u h fmt now false).2.1.artworks, r.id ≠ h) ∧
    (publishArtwork db blobs u h fmt now false).2.2 = blobs := by
  have hcleanSub : ∀ y ∈ (CleanDeletedArtwork db h u).2.artworks, y ∈ db.artworks := by
    intro y hy
    simp only [CleanDeletedArtwork, removeArtworkRows, List.mem_filter] at hy
    exact hy.1
  have hanyFalse : ((CleanDeletedArtwork db h u).2.artworks.any fun x => x.id == h) = false := by
    cases hcase : (CleanDeletedArtwork db h u).2.artworks.any fun x => x.id == h
    · rfl
    · obtain ⟨y, hy, hyh⟩ := List.any_eq_true.mp hcase
      exact absurd (by simpa using hyh) (hfresh y (hcleanSub y hy))
  have hflag : (CleanDeletedArtwork db h u).1 = false := by
    have hnil : db.artworks.filter
        (fun x => x.id == h && x.authorId == u && x.deleted) = [] := by
      refine List.filter_eq_nil_iff.mpr fun y hy hyp => ?_
      simp only [Bool.and_eq_true] at hyp
      exact hfresh y hy (by simpa using hyp.1.1)
    simp only [CleanDeletedArtwork, hnil]
    rfl
  refine ⟨?_, ?_, ?_⟩
  · simp [publishArtwork, AddArtwork, hanyFalse, hflag]
  · intro r hrfin
    simp [publishArtwork, AddArtwork, hanyFalse, hflag,
      CleanArtwork, removeArtworkRows, List.mem_filter, List.mem_append] at hrfin
    exact hfresh r (hcleanSub r hrfin.1)
  · simp [publishArtwork, AddArtwork, hanyFalse, hflag]

/-- C7 witness: publishing a fresh hash into an empty catalog with a failing
blob write surfaces the storage error and leaves no trace. -/
theorem publish_write_failure_compensates_witness :
    (publishArtwork
      (⟨[⟨"ua", "aliceart", "Alice"⟩], [], [], [], [], []⟩ : DB) [] "ua" "h1" "png" 9 false).1
        = .storageError ∧
    (∀ r ∈ (publishArtwork
      (⟨[⟨"ua", "aliceart", "Alice"⟩], [], [], [], [], []⟩ : DB) [] "ua" "h1" "png" 9 false).2.1.artworks,
        r.id ≠ "h1") ∧
    (publishArtwork
      (⟨[⟨"ua", "aliceart", "Alice"⟩], [], [], [], [], []⟩ : DB) [] "ua" "h1" "png" 9 false).2.2
        = ([] : List String) :=
  publish_write_failure_compensates ⟨[⟨"ua", "aliceart", "Alice"⟩], [], [], [], [], []⟩
    [] "ua" "h1" "png" 9 (by intro r hr; simp at hr)

/-! Reactions and title edits. -/

/-- Searching a mapped list for a predicate the mapping leaves invariant finds
the image of the element the original search finds. -/
theorem find_of_map_invariant {α : Type} (p : α → Bool) (fn : α → α)
    (hp : ∀ x, p (fn x) = p x) (l : List α) :
    (l.map fn).find? p = (l.find? p).map fn := by
  induction l with
  | nil => rfl
  | cons x xs ih =>
    cases hx : p x
    · rw [List.map_cons, List.find?_cons_of_neg _ (by simp [hp, hx]),
        List.find?_cons_of_neg _ (by simp [hx])]
      exact ih
    · rw [List.map_cons, List.find?_cons_of_pos _ (by simp [hp, hx]),
        List.find?_cons_of_pos _ hx]
      rfl

/-- C9: starting from a state whose stored reaction of `(u, a)` — if any —
differs from `k`, setting reaction `k` twice reports `changed` and then
`unchanged`; the second call returns the very state the first call produced,
and in that state the stored row carries the timestamp `d1` of the first call. -/
theorem setReaction_changed_then_unchanged (db : DB) (u a k : String) (d1 d2 : Nat)
    (hart : (db.artworks.any fun x => x.id == a) = true)
    (husr : (db.users.any fun x => x.id == u) = true)
    (hstored : ∀ f ∈ db.feedback, f.artwork = a → f.user = u → f.reaction ≠ k) :
    ∃ db1, setReactionCall db u a d1 k = (.changed d1, db1) ∧
      setReactionCall db1 u a d2 k = (.unchanged, db1) ∧
      db1.feedback.find? (fun g => g.artwork == a && g.user == u) = some ⟨a, u, k, d1⟩ := by
  cases hfind : db.feedback.find? fun g => g.artwork == a && g.user == u with
  | none =>
    have hfind1 : (db.feedback ++ [(⟨a, u, k, d1⟩ : FeedbackRow)]).find?
        (fun g => g.artwork == a && g.user == u) = some ⟨a, u, k, d1⟩ := by
      rw [List.find?_append, hfind]
      simp
    refine ⟨{ db with feedback := db.feedback ++ [(⟨a, u, k, d1⟩ : FeedbackRow)] },
      ?_, ?_, hfind1⟩
    · simp [setReactionCall, SetReaction, hart, husr, hfind]
    · simp [setReactionCall, SetReaction, hart, husr, hfind1]
  | some f0 =>
    have hmem := List.mem_of_find?_eq_some hfind
    have hpf := List.find?_some hfind
    simp only [Bool.and_eq_true, beq_iff_eq] at hpf
    have hne : f0.reaction ≠ k := hstored f0 hmem hpf.1 hpf.2
    have hbeq : (f0.reaction == k) = false := by simpa using hne
    have hinv : ∀ g : FeedbackRow,
        ((fun g => g.artwork == a && g.user == u) (upsertReaction a u k d1 g)) =
        ((fun g => g.artwork == a && g.user == u) g) := by
      intro g
      by_cases hg : (g.artwork == a && g.user == u) = true
      · simp [upsertReaction, hg]
      · simp only [Bool.not_eq_true] at hg
        simp [upsertReaction, hg]
    have hfind1 : ((db.feedback.map (upsertReaction a u k d1)).find?
        (fun g => g.artwork == a && g.user == u)) = some ⟨a, u, k, d1⟩ := by
      rw [find_of_map_invariant _ _ hinv, hfind]
      have hrow : upsertReaction a u k d1 f0 = (⟨a, u, k, d1⟩ : FeedbackRow) := by
        simp [upsertReaction, hpf.1, hpf.2]
      simp [hrow]
    refine ⟨{ db with feedback := db.feedback.map (upsertReaction a u k d1) }, ?_, ?_, hfind1⟩
    · simp [setReactionCall, SetReaction, hart, husr, hfind, hbeq]
    · simp [setReactionCall, SetReaction, hart, husr, hfind1]

/-- C9 witness: Bob reacts twice with `Like` to the live artwork `art1`: the
first call reports `changed`, the second `unchanged` on the unchanged state,
which stores the date of the first call. -/
theorem setReaction_changed_then_unchanged_witness :
    ∃ db1, setReactionCall dbFollowedLive "ub" "art1" 7 "Like" = (.changed 7, db1) ∧
      setReactionCall db1 "ub" "art1" 8 "Like" = (.unchanged, db1) ∧
      db1.feedback.find? (fun g => g.artwork == "art1" && g.user == "ub")
        = some ⟨"art1", "ub", "Like", 7⟩ :=
  setReaction_changed_then_unchanged dbFollowedLive "ub" "art1" "Like" 7 8
    (by decide) (by decide) (by intro f hf; simp [dbFollowedLive] at hf)

/-- C10: the title update matches rows only by id and author, so a
soft-deleted artwork is retitled with a success result — not the not-modified
outcome — while every tombstone flag in the catalog is left untouched. -/
theorem setArtworkTitle_ignores_tombstone (db : DB) (aid uid t : String) (r : ArtworkRow)
    (hr : r ∈ db.artworks) (hid : r.id = aid) (hauth : r.authorId = uid)
    (_hdel : r.deleted = true) :
    ∃ db', SetArtworkTitle db aid uid t = .ok db' ∧
      (∀ x ∈ db'.artworks, x.id = aid → x.authorId = uid → x.title = some t) ∧
      db'.artworks.map (fun x => x.deleted) = db.artworks.map fun x => x.deleted := by
  have hfmem : r ∈ db.artworks.filter fun x => x.id == aid && x.authorId == uid :=
    List.mem_filter.mpr ⟨hr, by simp [hid, hauth]⟩
  have hlen : ((db.artworks.filter fun x => x.id == aid && x.authorId == uid).length == 0)
      = false := by
    have hne := List.ne_nil_of_mem hfmem
    simpa [List.length_eq_zero] using hne
  refine ⟨{ db with artworks := db.artworks.map (retitleRow aid uid t) }, ?_, ?_, ?_⟩
  · simp [SetArtworkTitle, hlen]
  · intro x hx hxid hxauth
    obtain ⟨y, _, hyx⟩ := List.mem_map.mp hx
    cases hown : y.id == aid && y.authorId == uid with
    | true =>
      rw [← hyx]
      simp [retitleRow, hown]
    | false =>
      simp only [retitleRow, hown, Bool.false_eq_true, if_false] at hyx
      rw [← hyx] at hxid hxauth
      simp [hxid, hxauth] at hown
  · rw [List.map_map]
    refine List.map_congr_left fun x _ => ?_
    cases hown : x.id == aid && x.authorId == uid <;> simp [retitleRow, hown]

/-- C10 witness: Alice retitles her soft-deleted artwork `d1`; the call
succeeds, the row carries the new title, and no tombstone changes. -/
theorem setArtworkTitle_ignores_tombstone_witness :
    ∃ db', SetArtworkTitle dbUnrelatedDeleted "d1" "ua" "Danae" = .ok db' ∧
      (∀ x ∈ db'.artworks, x.id = "d1" → x.authorId = "ua" → x.title = some "Danae") ∧
      db'.artworks.map (fun x => x.deleted)
        = dbUnrelatedDeleted.artworks.map fun x => x.deleted :=
  setArtworkTitle_ignores_tombstone dbUnrelatedDeleted "d1" "ua" "Danae"
    ⟨"d1", "ua", "Painting", "png", none, 3, 3, true⟩ (by decide) rfl rfl rfl

end Kvasari
